import Mathlib

/-!
Verification of the date-masking / validation / status-derivation pipeline and
the cache-invalidation convention of the web-scales client.

The definitions below are shallow embeddings of the JavaScript functions in
`src/devices/DeviceDetailPage.jsx` (both the variant importing the centralized
query helpers and the older inline variant), `query/keys.js` and
`query/invalidate.js`.  Strings are modelled as Lean `String`/`List Char`,
JavaScript numbers as `ℚ` (plus a non-finite marker), and the relevant part of
the ECMAScript `Date` semantics (month/day carry normalization of
`Date.UTC(y, m, d)` followed by `getUTCFullYear/Month/Date` extraction) as an
explicit normalization function on calendar components.
-/

namespace WebScalesClient

/-- Embedding of the regex character class `\d` = `[0-9]` ('0' has code 48). -/
def isDigitChar (c : Char) : Bool := 48 ≤ c.toNat && c.toNat ≤ 57

/-- Character set trimmed by JavaScript `String.prototype.trim` (WhiteSpace and
LineTerminator code points). -/
def isJsWhitespace (c : Char) : Bool :=
  c.toNat = 9 || c.toNat = 10 || c.toNat = 11 || c.toNat = 12 || c.toNat = 13 ||
  c.toNat = 32 || c.toNat = 160 || c.toNat = 5760 ||
  (8192 ≤ c.toNat && c.toNat ≤ 8202) ||
  c.toNat = 8232 || c.toNat = 8233 || c.toNat = 8239 || c.toNat = 8287 ||
  c.toNat = 12288 || c.toNat = 65279

/-- Embedding of `String.prototype.trim`: drop leading and trailing whitespace. -/
def jsTrim (l : List Char) : List Char :=
  ((l.dropWhile isJsWhitespace).reverse.dropWhile isJsWhitespace).reverse

/-- Embedding of `maskDDMMYY` from `DeviceDetailPage.jsx`: keep only digits,
truncate to 6, and regroup as `dd`, `dd-mm` or `dd-mm-yy`. -/
def maskDDMMYY (raw : List Char) : List Char :=
  let digits := (raw.filter isDigitChar).take 6
  let dd := digits.take 2
  let mm := (digits.drop 2).take 2
  let yy := (digits.drop 4).take 2
  if digits.length ≤ 2 then dd
  else if digits.length ≤ 4 then dd ++ '-' :: mm
  else dd ++ '-' :: (mm ++ '-' :: yy)

/-- String-level wrapper of `maskDDMMYY` (a JavaScript string argument makes
`String(raw || "")` the identity). -/
def maskDDMMYYStr (raw : String) : String := String.mk (maskDDMMYY raw.data)

/-- Modelled from the spec: re-insert `-` after the 2nd and after the 4th digit
as those positions become available, with no truncation of the tail groups. -/
def dashGroupSpec (ds : List Char) : List Char :=
  if ds.length ≤ 2 then ds
  else if ds.length ≤ 4 then ds.take 2 ++ '-' :: ds.drop 2
  else ds.take 2 ++ '-' :: ((ds.drop 2).take 2 ++ '-' :: ds.drop 4)

lemma digits6_all_digit (l : List Char) :
    ∀ c ∈ (l.filter isDigitChar).take 6, isDigitChar c = true := by
  intro c hc
  exact List.of_mem_filter (List.take_subset 6 _ hc)

lemma filter_digits6 (l : List Char) :
    ((l.filter isDigitChar).take 6).filter isDigitChar = (l.filter isDigitChar).take 6 := by
  rw [List.filter_eq_self]
  exact digits6_all_digit l

lemma take6_split (ds : List Char) :
    List.take 2 ds ++ (List.take 2 (List.drop 2 ds) ++ List.take 2 (List.drop 4 ds)) =
      List.take 6 ds := by
  have h1 := List.take_add ds 2 2
  have h2 := List.take_add ds 4 2
  norm_num at h1 h2
  rw [h2, h1, List.append_assoc]

lemma maskDDMMYY_congr {l₁ l₂ : List Char}
    (h : (l₁.filter isDigitChar).take 6 = (l₂.filter isDigitChar).take 6) :
    maskDDMMYY l₁ = maskDDMMYY l₂ := by
  unfold maskDDMMYY
  rw [h]

/-- The digits surviving in the output of `maskDDMMYY` are exactly the (at most
six) digits of the input. -/
lemma filter_maskDDMMYY (l : List Char) :
    (maskDDMMYY l).filter isDigitChar = (l.filter isDigitChar).take 6 := by
  unfold maskDDMMYY
  set ds := (l.filter isDigitChar).take 6 with hds
  have hall : ∀ c ∈ ds, isDigitChar c = true := digits6_all_digit l
  have hdd : (ds.take 2).filter isDigitChar = ds.take 2 := by
    rw [List.filter_eq_self]
    exact fun c hc => hall c (List.take_subset 2 ds hc)
  have hmm : ((ds.drop 2).take 2).filter isDigitChar = (ds.drop 2).take 2 := by
    rw [List.filter_eq_self]
    exact fun c hc => hall c (List.drop_subset 2 ds (List.take_subset 2 _ hc))
  have hyy : ((ds.drop 4).take 2).filter isDigitChar = (ds.drop 4).take 2 := by
    rw [List.filter_eq_self]
    exact fun c hc => hall c (List.drop_subset 4 ds (List.take_subset 2 _ hc))
  have hdash : isDigitChar '-' = false := by decide
  have htake6 : ds.take 6 = ds := by
    rw [hds, List.take_take]
    norm_num
  by_cases h2 : ds.length ≤ 2
  · simp only [h2, if_true]
    rw [hdd, List.take_of_length_le (le_trans h2 (by omega))]
  · by_cases h4 : ds.length ≤ 4
    · simp only [h2, if_false, h4, if_true]
      rw [List.filter_append, hdd, List.filter_cons, hdash]
      simp only [Bool.false_eq_true, if_false]
      rw [hmm, ← List.take_add, List.take_of_length_le (le_trans h4 (by omega))]
    · simp only [h2, if_false, h4, if_false]
      rw [List.filter_append, List.filter_cons, hdash]
      simp only [Bool.false_eq_true, if_false]
      rw [List.filter_append, hmm, List.filter_cons, hdash]
      simp only [Bool.false_eq_true, if_false]
      rw [hdd, hyy, take6_split, htake6]

/-- Claim C4: `maskDDMMYY` strips all non-digit characters, truncates the
remaining digits to at most 6, and re-inserts '-' after the 2nd and after the
4th digit as those positions become available; `mask "0101260" = "01-01-26"`,
`mask "01" = "01"`, `mask "" = ""`. -/
theorem claim_C4_mask_groups :
    (∀ raw : String,
      maskDDMMYYStr raw = String.mk (dashGroupSpec ((raw.data.filter isDigitChar).take 6)))
    ∧ maskDDMMYYStr "0101260" = "01-01-26"
    ∧ maskDDMMYYStr "01" = "01"
    ∧ maskDDMMYYStr "" = "" := by
  refine ⟨fun raw => ?_, by decide, by decide, by decide⟩
  unfold maskDDMMYYStr
  congr 1
  unfold maskDDMMYY dashGroupSpec
  set ds := (raw.data.filter isDigitChar).take 6 with hds
  have hlen : ds.length ≤ 6 := by
    rw [hds, List.length_take]
    omega
  by_cases h2 : ds.length ≤ 2
  · simp only [h2, if_true]
    exact List.take_of_length_le h2
  · by_cases h4 : ds.length ≤ 4
    · simp only [h2, if_false, h4, if_true]
      rw [List.take_of_length_le (show (ds.drop 2).length ≤ 2 by rw [List.length_drop]; omega)]
    · simp only [h2, if_false, h4, if_false]
      rw [List.take_of_length_le (show (ds.drop 4).length ≤ 2 by rw [List.length_drop]; omega)]

/-- Claim C5: `maskDDMMYY` is idempotent. -/
theorem claim_C5_mask_idempotent :
    ∀ s : String, maskDDMMYYStr (maskDDMMYYStr s) = maskDDMMYYStr s := by
  intro s
  unfold maskDDMMYYStr
  congr 1
  apply maskDDMMYY_congr
  show ((String.mk (maskDDMMYY s.data)).data.filter isDigitChar).take 6 = _
  rw [show (String.mk (maskDDMMYY s.data)).data = maskDDMMYY s.data from rfl]
  rw [filter_maskDDMMYY, List.take_take]
  norm_num

/-- Claim C10: `maskDDMMYY` depends only on the digit subsequence of its input;
its output consists only of digits and dashes and holds at most six digits. -/
theorem claim_C10_mask_digit_subsequence :
    (∀ s t : String, s.data.filter isDigitChar = t.data.filter isDigitChar →
      maskDDMMYYStr s = maskDDMMYYStr t)
    ∧ (∀ s : String, ∀ c ∈ (maskDDMMYYStr s).data, isDigitChar c = true ∨ c = '-')
    ∧ (∀ s : String, ((maskDDMMYYStr s).data.filter isDigitChar).length ≤ 6) := by
  refine ⟨fun s t h => ?_, fun s c hc => ?_, fun s => ?_⟩
  · unfold maskDDMMYYStr
    congr 1
    apply maskDDMMYY_congr
    rw [h]
  · have hc' : c ∈ maskDDMMYY s.data := hc
    revert hc'
    unfold maskDDMMYY
    set ds := (s.data.filter isDigitChar).take 6 with hds
    have hall : ∀ c ∈ ds, isDigitChar c = true := digits6_all_digit s.data
    intro hc'
    by_cases h2 : ds.length ≤ 2
    · simp only [h2, if_true] at hc'
      exact Or.inl (hall c (List.take_subset 2 ds hc'))
    · by_cases h4 : ds.length ≤ 4
      · simp only [h2, if_false, h4, if_true, List.mem_append, List.mem_cons] at hc'
        rcases hc' with h | h | h
        · exact Or.inl (hall c (List.take_subset 2 ds h))
        · exact Or.inr h
        · exact Or.inl (hall c (List.drop_subset 2 ds (List.take_subset 2 _ h)))
      · simp only [h2, if_false, h4, if_false, List.mem_append, List.mem_cons] at hc'
        rcases hc' with h | h | h | h | h
        · exact Or.inl (hall c (List.take_subset 2 ds h))
        · exact Or.inr h
        · exact Or.inl (hall c (List.drop_subset 2 ds (List.take_subset 2 _ h)))
        · exact Or.inr h
        · exact Or.inl (hall c (List.drop_subset 4 ds (List.take_subset 2 _ h)))
  · show ((maskDDMMYY s.data).filter isDigitChar).length ≤ 6
    rw [filter_maskDDMMYY, List.length_take]
    omega

/-- Closed instance of claim C10: two strings with the same digit subsequence
mask identically. -/
theorem claim_C10_witness :
    "a1b2c".data.filter isDigitChar = "12??".data.filter isDigitChar ∧
    maskDDMMYYStr "a1b2c" = maskDDMMYYStr "12??" :=
  ⟨by decide, claim_C10_mask_digit_subsequence.1 "a1b2c" "12??" (by decide)⟩

/-- Gregorian leap-year rule used by the ECMAScript `Date` object. -/
def isLeapYear (y : Int) : Bool := y % 4 = 0 && (!(y % 100 = 0) || y % 400 = 0)

/-- Number of days of month `m` (1-based) in year `y`, per the ECMAScript
`Date` calendar. -/
def daysInMonthYM (y m : Int) : Int :=
  if m = 2 then (if isLeapYear y then 29 else 28)
  else if m = 4 ∨ m = 6 ∨ m = 9 ∨ m = 11 then 30
  else 31

/-- Days in the month encoded by the month counter `k` (`k = year * 12 +
zero-based month`). -/
def dimK (k : Int) : Int := daysInMonthYM (k / 12) (k % 12 + 1)

/-- Day-of-month carry normalization of ECMAScript `MakeDay`: starting from
month counter `k` and (possibly out-of-range) day `d`, move across month
boundaries until `1 ≤ d ≤ daysInMonth`.  The fuel bounds the recursion; eight
steps are ample for the two-digit day values produced by `parseDDMMYY`. -/
def dayNorm (fuel : Nat) (k d : Int) : Int × Int :=
  match fuel with
  | 0 => (k, d)
  | fuel' + 1 =>
    if d < 1 then dayNorm fuel' (k - 1) (d + dimK (k - 1))
    else if dimK k < d then dayNorm fuel' (k + 1) (d - dimK k)
    else (k, d)

/-- A calendar date at UTC midnight (the value wrapped by the JS `Date`
objects that `parseDDMMYY` returns). -/
structure CalDate where
  year : Int
  month : Int
  day : Int
deriving DecidableEq, Repr

/-- Numeric value of a digit character. -/
def digitVal (c : Char) : Nat := c.toNat - 48

/-- Embedding of the regex match `^(\d{2})-(\d{2})-(\d{2})$` together with the
`Number` conversion of the three captured groups. -/
def matchDDMMYY (l : List Char) : Option (Nat × Nat × Nat) :=
  match l with
  | [a, b, c1, c, d, c2, e, f] =>
    if c1 = '-' ∧ c2 = '-' ∧ isDigitChar a ∧ isDigitChar b ∧ isDigitChar c ∧
        isDigitChar d ∧ isDigitChar e ∧ isDigitChar f then
      some (10 * digitVal a + digitVal b, 10 * digitVal c + digitVal d,
        10 * digitVal e + digitVal f)
    else none
  | _ => none

/-- Construction of `Date.UTC(2000+yy, mm-1, dd)` followed by the
`getUTCFullYear/getUTCMonth/getUTCDate` round-trip check of `parseDDMMYY`.
`Date.UTC` normalizes the month into the counter `k₀ = y*12 + (mm-1)` and
carries the day via `dayNorm`; the time value is finite for all two-digit
components, so the `Number.isNaN` guard of the source can never fire. -/
def parseComponents (dd mm yy : Nat) : Option CalDate :=
  let y : Int := (yy : Int) + 2000
  let k0 : Int := y * 12 + ((mm : Int) - 1)
  let nd := dayNorm 8 k0 (dd : Int)
  if nd.1 / 12 = y ∧ nd.1 % 12 = (mm : Int) - 1 ∧ nd.2 = (dd : Int) then
    some ⟨y, (mm : Int), (dd : Int)⟩
  else none

/-- Embedding of `parseDDMMYY` from `DeviceDetailPage.jsx`. -/
def parseDDMMYY (s : String) : Option CalDate :=
  if s = "" then none
  else
    match matchDDMMYY (jsTrim s.data) with
    | none => none
    | some (dd, mm, yy) => parseComponents dd mm yy

/-- Modelled from the spec: the string is exactly two digits, a dash, two
digits, a dash and two digits, with the stated component values. -/
def specPatternDDMMYY (l : List Char) (dd mm yy : Nat) : Prop :=
  ∃ a b c d e f : Char,
    l = [a, b, '-', c, d, '-', e, f] ∧
    isDigitChar a ∧ isDigitChar b ∧ isDigitChar c ∧ isDigitChar d ∧
    isDigitChar e ∧ isDigitChar f ∧
    dd = 10 * digitVal a + digitVal b ∧ mm = 10 * digitVal c + digitVal d ∧
    yy = 10 * digitVal e + digitVal f

/-- Modelled from the spec: the components denote a real calendar date in year
`2000 + yy` (month in range and no day overflow). -/
def realDMY (dd mm yy : Nat) : Prop :=
  1 ≤ mm ∧ mm ≤ 12 ∧ 1 ≤ dd ∧
    (dd : Int) ≤ daysInMonthYM ((yy : Int) + 2000) (mm : Int)

lemma daysInMonthYM_bounds (y m : Int) :
    28 ≤ daysInMonthYM y m ∧ daysInMonthYM y m ≤ 31 := by
  unfold daysInMonthYM
  split
  · split <;> omega
  · split <;> omega

lemma dimK_bounds (k : Int) : 28 ≤ dimK k ∧ dimK k ≤ 31 :=
  daysInMonthYM_bounds _ _

lemma dayNorm_succ (fuel : Nat) (k d : Int) :
    dayNorm (fuel + 1) k d =
      if d < 1 then dayNorm fuel (k - 1) (d + dimK (k - 1))
      else if dimK k < d then dayNorm fuel (k + 1) (d - dimK k)
      else (k, d) := rfl

lemma dayNorm_fst_le (fuel : Nat) :
    ∀ k d : Int, 1 ≤ d → k ≤ (dayNorm fuel k d).1 := by
  induction fuel with
  | zero => intro k d _; exact le_refl k
  | succ n ih =>
    intro k d hd
    rw [dayNorm_succ]
    rcases lt_or_le (dimK k) d with hgt | hle
    · rw [if_neg (by omega), if_pos hgt]
      have := ih (k + 1) (d - dimK k) (by omega)
      omega
    · rw [if_neg (by omega), if_neg (by omega)]

lemma dimK_at (Y mm : Int) (h1 : 1 ≤ mm) (h2 : mm ≤ 12) :
    dimK (Y * 12 + (mm - 1)) = daysInMonthYM Y mm := by
  unfold dimK
  have e1 : (Y * 12 + (mm - 1)) / 12 = Y := by omega
  have e2 : (Y * 12 + (mm - 1)) % 12 = mm - 1 := by omega
  rw [e1, e2]
  congr 1
  omega

lemma dayNorm_check_iff (Y mm dd : Int) (hmm : 0 ≤ mm ∧ mm ≤ 99)
    (hdd : 0 ≤ dd ∧ dd ≤ 99) :
    ((dayNorm 8 (Y * 12 + (mm - 1)) dd).1 / 12 = Y ∧
     (dayNorm 8 (Y * 12 + (mm - 1)) dd).1 % 12 = mm - 1 ∧
     (dayNorm 8 (Y * 12 + (mm - 1)) dd).2 = dd) ↔
    (1 ≤ mm ∧ mm ≤ 12 ∧ 1 ≤ dd ∧ dd ≤ daysInMonthYM Y mm) := by
  set k0 := Y * 12 + (mm - 1) with hk0
  constructor
  · rintro ⟨h1, h2, h3⟩
    have hmge : 1 ≤ mm ∧ mm ≤ 12 := by omega
    have hk : (dayNorm 8 k0 dd).1 = k0 := by omega
    have hdd1 : 1 ≤ dd := by
      by_contra hlt
      have hdd0 : dd = 0 := by omega
      subst hdd0
      have hb := dimK_bounds (k0 - 1)
      have hzero : dayNorm 8 k0 0 = (k0 - 1, dimK (k0 - 1)) := by
        rw [show (8 : Nat) = 7 + 1 from rfl, dayNorm_succ,
          if_pos (show (0 : Int) < 1 by omega),
          show (7 : Nat) = 6 + 1 from rfl, dayNorm_succ,
          if_neg (by omega), if_neg (by omega)]
        norm_num
      rw [hzero] at h3
      simp only at h3
      omega
    have hdim_eq : dimK k0 = daysInMonthYM Y mm := dimK_at Y mm hmge.1 hmge.2
    have hddle : dd ≤ dimK k0 := by
      by_contra hgt
      push_neg at hgt
      have hstep : dayNorm 8 k0 dd = dayNorm 7 (k0 + 1) (dd - dimK k0) := by
        rw [show (8 : Nat) = 7 + 1 from rfl, dayNorm_succ,
          if_neg (by omega), if_pos (by omega)]
      have hmono := dayNorm_fst_le 7 (k0 + 1) (dd - dimK k0) (by omega)
      rw [hstep] at hk
      omega
    exact ⟨hmge.1, hmge.2, hdd1, hdim_eq ▸ hddle⟩
  · rintro ⟨h1, h2, h3, h4⟩
    have hdim_eq : dimK k0 = daysInMonthYM Y mm := dimK_at Y mm h1 h2
    have hres : dayNorm 8 k0 dd = (k0, dd) := by
      rw [show (8 : Nat) = 7 + 1 from rfl, dayNorm_succ,
        if_neg (by omega), if_neg (by omega)]
    rw [hres]
    exact ⟨by omega, by omega, rfl⟩

lemma digitVal_le (c : Char) (hc : isDigitChar c = true) : digitVal c ≤ 9 := by
  unfold isDigitChar at hc
  unfold digitVal
  simp only [Bool.and_eq_true, decide_eq_true_eq] at hc
  omega

lemma matchDDMMYY_eq_some_iff (l : List Char) (dd mm yy : Nat) :
    matchDDMMYY l = some (dd, mm, yy) ↔ specPatternDDMMYY l dd mm yy := by
  constructor
  · intro h
    unfold matchDDMMYY at h
    split at h
    · next a b c1 c d c2 e f =>
      split at h
      · next hcond =>
        obtain ⟨hc1, hc2, ha, hb, hc, hd, he, hf⟩ := hcond
        injection h with h'
        obtain ⟨e1, e2, e3⟩ : dd = 10 * digitVal a + digitVal b ∧
            mm = 10 * digitVal c + digitVal d ∧
            yy = 10 * digitVal e + digitVal f := by
          have := h'.symm
          exact ⟨congrArg Prod.fst this, congrArg (fun t => t.2.1) this,
            congrArg (fun t => t.2.2) this⟩
        subst hc1
        subst hc2
        exact ⟨a, b, c, d, e, f, rfl, ha, hb, hc, hd, he, hf, e1, e2, e3⟩
      · cases h
    · cases h
  · rintro ⟨a, b, c, d, e, f, rfl, ha, hb, hc, hd, he, hf, rfl, rfl, rfl⟩
    exact if_pos ⟨rfl, rfl, ha, hb, hc, hd, he, hf⟩

lemma parseComponents_isSome_iff (dd mm yy : Nat) (hdd : dd ≤ 99)
    (hmm : mm ≤ 99) : (parseComponents dd mm yy).isSome ↔ realDMY dd mm yy := by
  have hiff := dayNorm_check_iff ((yy : Int) + 2000) (mm : Int) (dd : Int)
    ⟨by omega, by exact_mod_cast hmm⟩ ⟨by omega, by exact_mod_cast hdd⟩
  have hreal : realDMY dd mm yy ↔
      (1 ≤ (mm : Int) ∧ (mm : Int) ≤ 12 ∧ 1 ≤ (dd : Int) ∧
        (dd : Int) ≤ daysInMonthYM ((yy : Int) + 2000) (mm : Int)) := by
    unfold realDMY
    constructor
    · rintro ⟨u1, u2, u3, u4⟩
      refine ⟨by exact_mod_cast u1, by exact_mod_cast u2, by exact_mod_cast u3, u4⟩
    · rintro ⟨u1, u2, u3, u4⟩
      refine ⟨by exact_mod_cast u1, by exact_mod_cast u2, by exact_mod_cast u3, u4⟩
  simp only [parseComponents]
  split
  · next h => simpa using (hreal.mpr (hiff.mp h))
  · next h =>
    simp only [Option.isSome_none, Bool.false_eq_true, false_iff]
    intro hr
    exact h (hiff.mpr (hreal.mp hr))

/-- Claim C1 (amended): `parseDDMMYY s` succeeds iff `s`, after trimming
leading/trailing whitespace, matches exactly `DD-MM-YY` and the components
denote a real calendar date in year `2000+YY`; the concrete cases of the
claim. -/
theorem claim_C1_parse_iff_real_date :
    (∀ s : String, (parseDDMMYY s).isSome ↔
      ∃ dd mm yy : Nat, specPatternDDMMYY (jsTrim s.data) dd mm yy ∧ realDMY dd mm yy)
    ∧ parseDDMMYY "" = none
    ∧ parseDDMMYY "31-02-26" = none
    ∧ parseDDMMYY "01-01-26" = some ⟨2026, 1, 1⟩ := by
  refine ⟨fun s => ?_, by decide, by decide, by decide⟩
  unfold parseDDMMYY
  by_cases hs : s = ""
  · subst hs
    rw [if_pos rfl]
    simp only [Option.isSome_none, Bool.false_eq_true, false_iff]
    rintro ⟨dd, mm, yy, ⟨a, b, c, d, e, f, hl, -⟩, -⟩
    cases hl
  · rw [if_neg hs]
    split
    · next heq =>
      simp only [Option.isSome_none, Bool.false_eq_true, false_iff]
      rintro ⟨dd, mm, yy, hspec, -⟩
      rw [(matchDDMMYY_eq_some_iff _ dd mm yy).mpr hspec] at heq
      cases heq
    · next dd mm yy heq =>
      have hspec := (matchDDMMYY_eq_some_iff _ dd mm yy).mp heq
      obtain ⟨a, b, c, d, e, f, -, ha, hb, hc, hd, he, hf, e1, e2, e3⟩ := hspec
      have hdd99 : dd ≤ 99 := by
        have := digitVal_le a ha
        have := digitVal_le b hb
        omega
      have hmm99 : mm ≤ 99 := by
        have := digitVal_le c hc
        have := digitVal_le d hd
        omega
      rw [parseComponents_isSome_iff dd mm yy hdd99 hmm99]
      constructor
      · intro hr
        exact ⟨dd, mm, yy, (matchDDMMYY_eq_some_iff _ dd mm yy).mp heq, hr⟩
      · rintro ⟨dd', mm', yy', hspec', hr'⟩
        have := (matchDDMMYY_eq_some_iff _ dd' mm' yy').mpr hspec'
        rw [heq] at this
        injection this with h'
        obtain ⟨g1, g2, g3⟩ : dd = dd' ∧ mm = mm' ∧ yy = yy' :=
          ⟨congrArg Prod.fst h', congrArg (fun t => t.2.1) h',
            congrArg (fun t => t.2.2) h'⟩
        subst g1
        subst g2
        subst g3
        exact hr'

/-- Closed instance of claim C1's quantified part at a valid date. -/
theorem claim_C1_witness :
    (parseDDMMYY "01-01-26").isSome = true ∧
    (∃ dd mm yy : Nat, specPatternDDMMYY (jsTrim "01-01-26".data) dd mm yy ∧
      realDMY dd mm yy) := by
  have h := (claim_C1_parse_iff_real_date.1 "01-01-26").mp (by decide)
  exact ⟨by decide, h⟩

/-- Counterexample to claim C1 as stated: `" 01-01-26"` (leading space) parses
to a non-null date because `parseDDMMYY` trims the string first, yet the raw
string does not match the `DD-MM-YY` pattern (the regex matcher rejects it). -/
theorem claim_C1_counterexample :
    (parseDDMMYY " 01-01-26").isSome = true ∧
    matchDDMMYY " 01-01-26".data = none := by
  exact ⟨by decide, by decide⟩

/-- A JavaScript primitive field value (string or integral number) as stored
on a product record; `none` at a field models both `undefined` and `null`. -/
inductive JsVal where
  | str : String → JsVal
  | num : Int → JsVal
deriving DecidableEq, Repr

/-- JavaScript `String(x)` coercion on the modelled primitives. -/
def jsValStr : JsVal → String
  | .str s => s
  | .num n => toString n

/-- The fields of a cached product record that the verified pipeline reads. -/
structure Product where
  pluNumber : Option JsVal
  plu : Option JsVal
  product_key : Option JsVal
  productKey : Option JsVal
  code : Option JsVal
  id : Option JsVal
  sellByDate : Option String
deriving DecidableEq, Repr

/-- Application of `parseDDMMYY` to the optional-chained `p?.sellByDate`
(an absent field is falsy, so the parser returns null on it). -/
def parseOptStr : Option String → Option CalDate
  | none => none
  | some s => parseDDMMYY s

def msPerDay : Int := 24 * 3600 * 1000

/-- Rata-die day count of a calendar date (days since the ECMAScript epoch
1970-01-01); model of the `Date` time value divided by one day in ms. -/
def daysFromCivil (y m d : Int) : Int :=
  let y2 := if m ≤ 2 then y - 1 else y
  let era := y2 / 400
  let yoe := y2 - era * 400
  let mp := (m + 9) % 12
  let doy := (153 * mp + 2) / 5 + d - 1
  let doe := yoe * 365 + yoe / 4 - yoe / 100 + doy
  era * 146097 + doe - 719468

def dayNumber (dt : CalDate) : Int := daysFromCivil dt.year dt.month dt.day

/-- The `getTime()` value of a UTC-midnight date. -/
def getTimeMs (dt : CalDate) : Int := dayNumber dt * msPerDay

/-- Embedding of `daysUntil` from `DeviceDetailPage.jsx`; `todayDays` is the
day count of the current date's UTC midnight and `Math.floor` is `Int.fdiv`. -/
def daysUntil (todayDays : Int) (o : Option CalDate) : Option Int :=
  match o with
  | none => none
  | some dt => some (Int.fdiv (getTimeMs dt - todayDays * msPerDay) msPerDay)

/-- Sanity anchor for the day-count model: the epoch day is zero. -/
lemma daysFromCivil_epoch : daysFromCivil 1970 1 1 = 0 := by decide

/-- The display status (css class and label) computed for a product card. -/
structure StatusInfo where
  cls : String
  label : String
deriving DecidableEq, Repr

/-- Embedding of `computeStatus` from `DeviceDetailPage.jsx`. -/
def computeStatus (todayDays : Int) (p : Product) : StatusInfo :=
  match daysUntil todayDays (parseOptStr p.sellByDate) with
  | none => ⟨"status-ok", "OK"⟩
  | some d =>
    if d < 0 then ⟨"status-bad", "Просрочен"⟩
    else if d ≤ 2 then ⟨"status-warn", "Скоро (" ++ toString d ++ "д)"⟩
    else ⟨"status-ok", "OK"⟩

lemma daysUntil_some (todayDays : Int) (dt : CalDate) :
    daysUntil todayDays (some dt) = some (dayNumber dt - todayDays) := by
  show some ((getTimeMs dt - todayDays * msPerDay).fdiv msPerDay) =
    some (dayNumber dt - todayDays)
  unfold getTimeMs
  congr 1
  rw [← sub_mul]
  exact Int.mul_fdiv_cancel _ (by decide)

/-- Claim C2: the status pipeline computes the floor day difference between
the sell-by date and today at UTC midnight and classifies it: no parseable
date → OK; negative → expired; 0..2 → expiring soon with the number in the
label; otherwise OK. -/
theorem claim_C2_status_classification (today : Int) (p : Product) :
    daysUntil today (parseOptStr p.sellByDate) =
      (parseOptStr p.sellByDate).map (fun dt => dayNumber dt - today)
    ∧ (parseOptStr p.sellByDate = none →
        computeStatus today p = ⟨"status-ok", "OK"⟩)
    ∧ (∀ dt, parseOptStr p.sellByDate = some dt →
        (dayNumber dt - today < 0 →
          computeStatus today p = ⟨"status-bad", "Просрочен"⟩)
        ∧ (0 ≤ dayNumber dt - today → dayNumber dt - today ≤ 2 →
            computeStatus today p =
              ⟨"status-warn", "Скоро (" ++ toString (dayNumber dt - today) ++ "д)"⟩
            ∧ (toString (dayNumber dt - today)).data <:+:
                (computeStatus today p).label.data)
        ∧ (2 < dayNumber dt - today →
            computeStatus today p = ⟨"status-ok", "OK"⟩)) := by
  cases h : parseOptStr p.sellByDate with
  | none =>
    refine ⟨rfl, fun _ => ?_, fun dt hdt => nomatch hdt⟩
    unfold computeStatus
    rw [h]
    rfl
  | some dt =>
    have hstat : computeStatus today p =
        (if dayNumber dt - today < 0 then (⟨"status-bad", "Просрочен"⟩ : StatusInfo)
         else if dayNumber dt - today ≤ 2 then
           ⟨"status-warn", "Скоро (" ++ toString (dayNumber dt - today) ++ "д)"⟩
         else ⟨"status-ok", "OK"⟩) := by
      unfold computeStatus
      rw [h, daysUntil_some]
    refine ⟨?_, ?_, ?_⟩
    · rw [daysUntil_some]
      rfl
    · intro hn
      exact Option.noConfusion hn
    · intro dt' hdt'
      injection hdt' with hdt''
      subst hdt''
      refine ⟨fun hneg => ?_, fun h0 h2 => ?_, fun hgt => ?_⟩
      · rw [hstat, if_pos hneg]
      · have heq : computeStatus today p =
            ⟨"status-warn", "Скоро (" ++ toString (dayNumber dt - today) ++ "д)"⟩ := by
          rw [hstat, if_neg (by omega), if_pos h2]
        refine ⟨heq, ?_⟩
        rw [heq]
        refine ⟨"Скоро (".data, "д)".data, ?_⟩
        show _ = ("Скоро (" ++ toString (dayNumber dt - today) ++ "д)").data
        rw [String.data_append, String.data_append]
      · rw [hstat, if_neg (by omega), if_neg (by omega)]

def prodWithSell (s : String) : Product := ⟨none, none, none, none, none, none, some s⟩

def prodBlank : Product := ⟨none, none, none, none, none, none, none⟩

/-- Closed instances of claim C2: sell-by = today+1 warns with "1" in the
label, today−1 is expired, today+10 is OK, and a missing date is OK
(today = 2026-01-01). -/
theorem claim_C2_witness :
    computeStatus (dayNumber ⟨2026, 1, 1⟩) (prodWithSell "02-01-26") =
      ⟨"status-warn", "Скоро (1д)"⟩ ∧
    computeStatus (dayNumber ⟨2026, 1, 1⟩) (prodWithSell "31-12-25") =
      ⟨"status-bad", "Просрочен"⟩ ∧
    computeStatus (dayNumber ⟨2026, 1, 1⟩) (prodWithSell "11-01-26") =
      ⟨"status-ok", "OK"⟩ ∧
    computeStatus (dayNumber ⟨2026, 1, 1⟩) prodBlank = ⟨"status-ok", "OK"⟩ := by
  refine ⟨?_, ?_, ?_, ?_⟩
  · have h := ((claim_C2_status_classification (dayNumber ⟨2026, 1, 1⟩)
      (prodWithSell "02-01-26")).2.2 ⟨2026, 1, 2⟩ (by decide)).2.1
      (by decide) (by decide)
    have hD : dayNumber ⟨2026, 1, 2⟩ - dayNumber ⟨2026, 1, 1⟩ = 1 := by decide
    rw [hD] at h
    rw [h.1]
    decide
  · exact ((claim_C2_status_classification (dayNumber ⟨2026, 1, 1⟩)
      (prodWithSell "31-12-25")).2.2 ⟨2025, 12, 31⟩ (by decide)).1 (by decide)
  · exact ((claim_C2_status_classification (dayNumber ⟨2026, 1, 1⟩)
      (prodWithSell "11-01-26")).2.2 ⟨2026, 1, 11⟩ (by decide)).2.2 (by decide)
  · exact (claim_C2_status_classification (dayNumber ⟨2026, 1, 1⟩)
      prodBlank).2.1 rfl

/-- Embedding of `isDDMMYY`: empty is allowed, otherwise the parser decides. -/
def isDDMMYY (s : String) : Bool :=
  if s = "" then true else (parseDDMMYY s).isSome

/-- The constant error message of `dateErrorText`. -/
def dateErrMsg : String := "Формат даты: DD-MM-YY, например 01-01-26"

/-- Embedding of `dateErrorText` from `DeviceDetailPage.jsx`. -/
def dateErrorText (s : String) : String :=
  if s = "" then "" else if isDDMMYY s then "" else dateErrMsg

/-- Claim C6: validation returns "" exactly for the empty string or a parseable
date, and otherwise the fixed error text, which names the `DD-MM-YY` format
and gives the example date `01-01-26`; `validate "1-1-26"` errors and
`validate ""` does not. -/
theorem claim_C6_validate (s : String) :
    (dateErrorText s = "" ↔ (s = "" ∨ (parseDDMMYY s).isSome))
    ∧ (dateErrorText s ≠ "" → dateErrorText s = dateErrMsg)
    ∧ "DD-MM-YY".data <:+: dateErrMsg.data
    ∧ "01-01-26".data <:+: dateErrMsg.data
    ∧ dateErrMsg ≠ ""
    ∧ dateErrorText "1-1-26" ≠ ""
    ∧ dateErrorText "" = "" := by
  refine ⟨?_, ?_, by decide, by decide, by decide, by decide, by decide⟩
  · unfold dateErrorText isDDMMYY
    by_cases hs : s = ""
    · rw [if_pos hs]
      simp [hs]
    · rw [if_neg hs, if_neg hs]
      by_cases hp : (parseDDMMYY s).isSome
      · rw [if_pos hp]
        simp [hs, hp]
      · rw [if_neg hp]
        constructor
        · intro habs
          exact absurd habs (by decide)
        · intro hor
          rcases hor with h | h
          · exact absurd h hs
          · exact absurd h hp
  · unfold dateErrorText isDDMMYY
    by_cases hs : s = ""
    · rw [if_pos hs]
      intro habs
      exact absurd rfl habs
    · rw [if_neg hs, if_neg hs]
      by_cases hp : (parseDDMMYY s).isSome
      · rw [if_pos hp]
        intro habs
        exact absurd rfl habs
      · rw [if_neg hp]
        intro _
        rfl

/-- Closed instance of claim C6: the ill-grouped string gets the full error
message. -/
theorem claim_C6_witness : dateErrorText "1-1-26" = dateErrMsg :=
  (claim_C6_validate "1-1-26").2.1 (by decide)

/-- A JavaScript number as produced by the `Number()` coercion: either a
finite value (an exact rational) or the collapsed non-finite results
(`NaN`, `±Infinity`). -/
inductive JsNum where
  | nan : JsNum
  | fin : ℚ → JsNum
deriving DecidableEq, Repr

/-- Embedding of `Math.trunc`: drop the fractional part, rounding toward
zero. -/
def jsTrunc (q : ℚ) : Int :=
  if q.num < 0 then -((-q.num) / (q.den : Int)) else q.num / (q.den : Int)

/-- Embedding of `normalizeIntervalMinutes` from `DeviceDetailPage.jsx`. -/
def normalizeIntervalMinutes (v : JsNum) (fallback : Int) : Int :=
  match v with
  | .nan => fallback
  | .fin q =>
    let intN := jsTrunc q
    if intN ≤ 0 then fallback else intN

lemma jsTrunc_eq_floor_ceil (q : ℚ) :
    jsTrunc q = if q < 0 then ⌈q⌉ else ⌊q⌋ := by
  unfold jsTrunc
  by_cases hq : q < 0
  · rw [if_pos (Rat.num_neg.mpr hq), if_pos hq]
    have h2 : ⌊-q⌋ = -q.num / (q.den : Int) := by
      rw [Rat.floor_def, Rat.neg_num, Rat.neg_den]
    rw [show ⌈q⌉ = -⌊-q⌋ by rw [Int.floor_neg, neg_neg], h2]
  · rw [if_neg (fun hh => hq (Rat.num_neg.mp hh)), if_neg hq, Rat.floor_def]

/-- Claim C7: `normalizeIntervalMinutes` returns the fallback on non-finite
input, truncates finite input toward zero, returns the fallback when the
truncation is ≤ 0 and the truncated value otherwise; with the claim's
concrete instances. -/
theorem claim_C7_normalize_interval :
    (∀ f : Int, normalizeIntervalMinutes .nan f = f)
    ∧ (∀ (q : ℚ) (f : Int), normalizeIntervalMinutes (.fin q) f =
        if jsTrunc q ≤ 0 then f else jsTrunc q)
    ∧ (∀ q : ℚ, jsTrunc q = if q < 0 then ⌈q⌉ else ⌊q⌋)
    ∧ normalizeIntervalMinutes (.fin (mkRat 0 1)) 60 = 60
    ∧ normalizeIntervalMinutes (.fin (mkRat 159 10)) 60 = 15
    ∧ normalizeIntervalMinutes (.fin (mkRat (-5) 1)) 60 = 60 :=
  ⟨fun _ => rfl, fun _ _ => rfl, jsTrunc_eq_floor_ceil, by decide, by decide,
    by decide⟩

/-- The body of a `setAutoUpdate` request. -/
structure AutoUpdatePayload where
  enabled : Bool
  interval_minutes : JsNum
deriving DecidableEq, Repr

/-- Payload built by the enabled toggle's onChange in the variant that calls
`normalizeIntervalMinutes`; `currentInterval` is the `Number()` view of the
currently stored interval. -/
def togglePayload (enabled : Bool) (currentInterval : JsNum) : AutoUpdatePayload :=
  ⟨enabled, .fin ((normalizeIntervalMinutes currentInterval 60 : Int) : ℚ)⟩

/-- Payload built by the interval field's onChange in the same variant;
`typed` is the `Number()` view of the typed text. -/
def intervalInputPayload (currentEnabled : Bool) (typed : JsNum) : AutoUpdatePayload :=
  ⟨currentEnabled, .fin ((normalizeIntervalMinutes typed 60 : Int) : ℚ)⟩

/-- Falsiness of a JS number: `NaN` and `0` are falsy. -/
def jsNumFalsy : JsNum → Bool
  | .nan => true
  | .fin q => q == 0

/-- Payload built by the older inline variant's toggle handler:
`Number(autoQ.data.interval_minutes || 60)` with no sanitization. -/
def togglePayloadLegacy (enabled : Bool) (cur : JsNum) : AutoUpdatePayload :=
  ⟨enabled, if jsNumFalsy cur then .fin 60 else cur⟩

/-- Payload built by the older inline variant's interval field handler:
`Number(e.target.value || 60)`; `typedNum` is the `Number()` view of the
typed string `typed`. -/
def intervalInputPayloadLegacy (en : Bool) (typed : String) (typedNum : JsNum) :
    AutoUpdatePayload :=
  ⟨en, if typed = "" then .fin 60 else typedNum⟩

/-- Whether a JS number is a finite integer that is at least 1. -/
def jsIsIntGe1 : JsNum → Bool
  | .nan => false
  | .fin q => q.den == 1 && decide (1 ≤ q.num)

lemma normalizeIntervalMinutes_ge_one (v : JsNum) (f : Int) (hf : 1 ≤ f) :
    1 ≤ normalizeIntervalMinutes v f := by
  cases v with
  | nan => exact hf
  | fin q =>
    show 1 ≤ (if jsTrunc q ≤ 0 then f else jsTrunc q)
    split <;> omega

lemma jsIsIntGe1_intCast (n : Int) (hn : 1 ≤ n) :
    jsIsIntGe1 (.fin (n : ℚ)) = true := by
  show ((n : ℚ).den == 1 && decide (1 ≤ (n : ℚ).num)) = true
  rw [Rat.den_intCast, Rat.num_intCast]
  simp [hn]

/-- Claim C8 (amended): in the `DeviceDetailPage` variant that sanitizes with
`normalizeIntervalMinutes`, every auto-update payload — from the toggle or
from the interval field — carries an interval that is a finite integer ≥ 1. -/
theorem claim_C8_interval_always_sanitized :
    ∀ (enabled : Bool) (cur : JsNum) (en : Bool) (typed : JsNum),
      (togglePayload enabled cur).interval_minutes =
        .fin ((normalizeIntervalMinutes cur 60 : Int) : ℚ)
      ∧ (intervalInputPayload en typed).interval_minutes =
        .fin ((normalizeIntervalMinutes typed 60 : Int) : ℚ)
      ∧ jsIsIntGe1 (togglePayload enabled cur).interval_minutes = true
      ∧ jsIsIntGe1 (intervalInputPayload en typed).interval_minutes = true := by
  intro enabled cur en typed
  refine ⟨rfl, rfl, ?_, ?_⟩
  · exact jsIsIntGe1_intCast _ (normalizeIntervalMinutes_ge_one cur 60 (by omega))
  · exact jsIsIntGe1_intCast _ (normalizeIntervalMinutes_ge_one typed 60 (by omega))

/-- Counterexample to claim C8 as stated: the older inline variant passes the
typed interval through unsanitized, so typing `-5` sends `-5`, which is not a
finite integer ≥ 1. -/
theorem claim_C8_counterexample :
    (intervalInputPayloadLegacy true "-5" (.fin (mkRat (-5) 1))).interval_minutes =
      .fin (mkRat (-5) 1)
    ∧ jsIsIntGe1 (intervalInputPayloadLegacy true "-5"
        (.fin (mkRat (-5) 1))).interval_minutes = false :=
  ⟨by decide, by decide⟩

/-- Qualification test of a candidate PLU field value:
`String(x).trim() !== ""`. -/
def pluQualifies (x : JsVal) : Bool := !(jsTrim (jsValStr x).data).isEmpty

/-- Predicate of the `candidates.find(...)` call in `getPlu`:
`x !== undefined && x !== null && String(x).trim() !== ""`. -/
def candidateOk : Option JsVal → Bool
  | none => false
  | some x => pluQualifies x

/-- The candidate field list of `getPlu`, in source order. -/
def pluCandidates (p : Product) : List (Option JsVal) :=
  [p.pluNumber, p.plu, p.product_key, p.productKey, p.code, p.id]

/-- Embedding of `getPlu` from `DeviceDetailPage.jsx` (`found ?? null`). -/
def getPlu (p : Product) : Option JsVal :=
  match (pluCandidates p).find? candidateOk with
  | some (some x) => some x
  | _ => none

/-- Modelled from the spec: try the candidates in priority order and return
the first qualifying one. -/
def firstQualifying : List (Option JsVal) → Option JsVal
  | [] => none
  | none :: rest => firstQualifying rest
  | some x :: rest => if pluQualifies x then some x else firstQualifying rest

lemma find_eq_firstQualifying (l : List (Option JsVal)) :
    (match l.find? candidateOk with
      | some (some x) => some x
      | _ => none) = firstQualifying l := by
  induction l with
  | nil => rfl
  | cons hd tl ih =>
    cases hd with
    | none =>
      rw [List.find?_cons_of_neg _ (by simp [candidateOk])]
      exact ih
    | some x =>
      by_cases hx : pluQualifies x
      · rw [List.find?_cons_of_pos _ (by simpa [candidateOk] using hx)]
        simp [firstQualifying, hx]
      · rw [List.find?_cons_of_neg _ (by simpa [candidateOk] using hx)]
        rw [ih]
        simp [firstQualifying, hx]

lemma firstQualifying_eq_none (l : List (Option JsVal))
    (h : ∀ o ∈ l, candidateOk o = false) : firstQualifying l = none := by
  induction l with
  | nil => rfl
  | cons hd tl ih =>
    cases hd with
    | none =>
      show firstQualifying tl = none
      exact ih fun o ho => h o (List.mem_cons_of_mem _ ho)
    | some x =>
      have hx := h (some x) (List.mem_cons_self _ _)
      simp only [candidateOk] at hx
      show (if pluQualifies x then some x else firstQualifying tl) = none
      rw [hx, if_neg (by simp)]
      exact ih fun o ho => h o (List.mem_cons_of_mem _ ho)

/-- Claim C9: `getPlu` tries `pluNumber`, `plu`, `product_key`, `productKey`,
`code`, `id` in that order and returns the first defined, non-null value whose
string form is non-empty after trimming; otherwise null.  In particular a
qualifying `pluNumber` wins over everything else. -/
theorem claim_C9_getPlu_priority (p : Product) :
    getPlu p = firstQualifying (pluCandidates p)
    ∧ (∀ v, p.pluNumber = some v → pluQualifies v = true → getPlu p = some v)
    ∧ ((∀ o ∈ pluCandidates p, candidateOk o = false) → getPlu p = none) := by
  refine ⟨find_eq_firstQualifying _, fun v hv hq => ?_, fun hall => ?_⟩
  · rw [show getPlu p = firstQualifying (pluCandidates p) from
      find_eq_firstQualifying _]
    show firstQualifying [p.pluNumber, p.plu, p.product_key, p.productKey,
      p.code, p.id] = some v
    rw [hv]
    show (if pluQualifies v then some v else _) = some v
    rw [hq, if_pos rfl]
  · rw [show getPlu p = firstQualifying (pluCandidates p) from
      find_eq_firstQualifying _]
    exact firstQualifying_eq_none _ hall

/-- A record carrying several populated candidate fields. -/
def prodPluBoth : Product :=
  ⟨some (.num 101), some (.str "other"), none, none, some (.str "c0"),
    some (.num 7), none⟩

/-- Closed instance of claim C9: `pluNumber` wins when several candidates are
present. -/
theorem claim_C9_witness : getPlu prodPluBoth = some (JsVal.num 101) :=
  (claim_C9_getPlu_priority prodPluBoth).2.1 (JsVal.num 101) rfl (by decide)

/-- The canonical query keys of `query/keys.js` (devices list, one device,
cached products, auto-update settings); ids are already coerced to numbers. -/
inductive QKey where
  | devices : QKey
  | device : Int → QKey
  | productsCached : Int → QKey
  | autoUpdate : Int → QKey
deriving DecidableEq, Repr

/-- One step of a mutation's `onSuccess` handler: an invalidation awaited to
completion, an invalidation merely started (fire-and-forget), the success
toast, or the synced flash. -/
inductive CacheStep where
  | invDone : QKey → CacheStep
  | invFire : QKey → CacheStep
  | notify : String → CacheStep
  | flash : CacheStep
deriving DecidableEq, Repr

/-- Embedding of `invalidateDeviceProducts` from `query/invalidate.js`: the
handler awaits `Promise.all` over the three keys, so all three invalidations
complete before the handler continues. -/
def invalidateDeviceProducts (id : Int) : List CacheStep :=
  [.invDone (.productsCached id), .invDone (.device id), .invDone .devices]

/-- Embedding of `invalidateDeviceAutoUpdate` from `query/invalidate.js`. -/
def invalidateDeviceAutoUpdate (id : Int) : List CacheStep :=
  [.invDone (.autoUpdate id), .invDone (.device id), .invDone .devices]

/-- Trace of `fetchM.onSuccess` in the helper-based variant. -/
def fetchOnSuccess (id : Int) : List CacheStep :=
  invalidateDeviceProducts id ++ [.notify "Товары выгружены"]

/-- Trace of `uploadM.onSuccess` in the helper-based variant. -/
def uploadOnSuccess (id : Int) : List CacheStep :=
  invalidateDeviceProducts id ++ [.notify "Товары загружены в весы", .flash]

/-- Trace of `patchM.onSuccess` in the helper-based variant. -/
def patchOnSuccess (id : Int) : List CacheStep :=
  invalidateDeviceProducts id ++ [.notify "Товар обновлён (кэш)"]

/-- Trace of `autoM.onSuccess` in the helper-based variant. -/
def autoOnSuccess (id : Int) : List CacheStep :=
  invalidateDeviceAutoUpdate id ++ [.notify "Настройки автообновления сохранены"]

/-- Trace of `autoM.onSuccess` in the older inline variant: a single
fire-and-forget invalidation of the auto-update key, then the toast. -/
def autoOnSuccessLegacy (id : Int) : List CacheStep :=
  [.invFire (.autoUpdate id), .notify "Настройки автообновления сохранены"]

/-- Trace of `fetchM.onSuccess` in the older inline variant: two
fire-and-forget invalidations (no `devices` key), then the toast. -/
def fetchOnSuccessLegacy (id : Int) : List CacheStep :=
  [.invFire (.productsCached id), .invFire (.device id), .notify "Товары выгружены"]

def isNotifyStep : CacheStep → Bool
  | .notify _ => true
  | _ => false

/-- Every key of `group` has its invalidation awaited to completion before the
first success notification of the trace. -/
def awaitedBeforeNotify (group : List QKey) (tr : List CacheStep) : Prop :=
  ∀ k ∈ group, CacheStep.invDone k ∈ tr.takeWhile (fun st => !isNotifyStep st)

/-- The invalidation group of the three product-affecting mutations. -/
def productsGroup (id : Int) : List QKey :=
  [.productsCached id, .device id, .devices]

/-- The invalidation group of the auto-update mutation. -/
def autoGroup (id : Int) : List QKey :=
  [.autoUpdate id, .device id, .devices]

/-- Claim C3 (amended): in the helper-based `DeviceDetailPage` variant, every
device mutation's success handler awaits its full invalidation group —
`productsCached/device/devices` for fetch, upload and patch;
`autoUpdate/device/devices` for the auto-update change — before the success
notification is surfaced. -/
theorem claim_C3_invalidation_groups (id : Int) :
    awaitedBeforeNotify (productsGroup id) (fetchOnSuccess id)
    ∧ awaitedBeforeNotify (productsGroup id) (uploadOnSuccess id)
    ∧ awaitedBeforeNotify (productsGroup id) (patchOnSuccess id)
    ∧ awaitedBeforeNotify (autoGroup id) (autoOnSuccess id) := by
  refine ⟨?_, ?_, ?_, ?_⟩ <;>
  · intro k hk
    simp only [productsGroup, autoGroup, List.mem_cons, List.not_mem_nil,
      or_false] at hk
    rcases hk with rfl | rfl | rfl <;>
      simp [fetchOnSuccess, uploadOnSuccess, patchOnSuccess, autoOnSuccess,
        invalidateDeviceProducts, invalidateDeviceAutoUpdate, isNotifyStep,
        List.takeWhile]

/-- Closed instance of claim C3 at device id 7. -/
theorem claim_C3_witness :
    awaitedBeforeNotify (productsGroup 7) (fetchOnSuccess 7)
    ∧ awaitedBeforeNotify (productsGroup 7) (uploadOnSuccess 7)
    ∧ awaitedBeforeNotify (productsGroup 7) (patchOnSuccess 7)
    ∧ awaitedBeforeNotify (autoGroup 7) (autoOnSuccess 7) :=
  claim_C3_invalidation_groups 7

/-- Counterexample to claim C3 as stated: in the older inline variant the
auto-update success handler fires a single invalidation without awaiting it
and omits `device(id)`/`devices`, so its group is not awaited before the
toast. -/
theorem claim_C3_counterexample :
    ¬ awaitedBeforeNotify (autoGroup 1) (autoOnSuccessLegacy 1)
    ∧ ¬ awaitedBeforeNotify (productsGroup 1) (fetchOnSuccessLegacy 1) := by
  constructor
  · intro h
    have hmem := h (.autoUpdate 1) (by simp [autoGroup])
    simp [autoOnSuccessLegacy, isNotifyStep, List.takeWhile] at hmem
  · intro h
    have hmem := h (.productsCached 1) (by simp [productsGroup])
    simp [fetchOnSuccessLegacy, isNotifyStep, List.takeWhile] at hmem

end WebScalesClient
